import Mathlib

/-!
Shallow embedding of the fuel-block-committer core: the `BlockWatcher`
(block selection / staleness) and the `CommitListener` (confirmation
reconciliation), together with the data model they share.  Pure functions
are translated directly; effectful Rust methods become explicit
state-passing functions over an environment record that carries the
results of the external collaborators (source-chain reader, destination
contract, submission store, handoff channel).
-/

/-- Rust `services::Error` (variants visible through the `From` impls in
`committer/src/errors.rs`): `Network`, `Storage`, `Other`, each carrying a
message string. -/
inductive Error where
  | Network : String → Error
  | Storage : String → Error
  | Other : String → Error
deriving DecidableEq, Repr

/-- Rust `FuelBlock { height: u32, hash: [u8; 32] }`; the hash is modelled as a
natural number since only equality of hashes is ever used. -/
structure FuelBlock where
  height : Nat
  hash : Nat
deriving DecidableEq, Repr

/-- Rust `BlockSubmission { block: FuelBlock, submittal_height: L1Height,
completed: bool }` (shape given in the spec data model, §3 and §6). -/
structure BlockSubmission where
  block : FuelBlock
  submittal_height : Nat
  completed : Bool
deriving DecidableEq, Repr

/-- Rust `FuelBlockCommittedOnL1 { fuel_block_hash: [u8; 32], commit_height: U256 }`. -/
structure FuelBlockCommittedOnL1 where
  fuel_block_hash : Nat
  commit_height : Nat
deriving DecidableEq, Repr

/-- Environment of one `BlockWatcher::run`: the commit interval
(`NonZeroU32`, positivity is a hypothesis), the results the fuel adapter
and the store would return during this run, and whether the handoff
channel send would fail (`some msg` models a closed/unavailable channel
whose `SendError` displays as `msg`). -/
structure WatcherEnv where
  commit_interval : Nat
  latest_block : Except Error FuelBlock
  block_at_height : Nat → Except Error (Option FuelBlock)
  latest_submission : Except Error (Option BlockSubmission)
  send_error : Option String

/-- Observable state threaded through `BlockWatcher::run`: the
`latest_fuel_block` gauge and the blocks emitted on the handoff channel. -/
structure WatcherState where
  latest_fuel_block_gauge : Int
  emitted : List FuelBlock
deriving DecidableEq, Repr

namespace BlockWatcher

/-- Rust `fetch_latest_block`: query the adapter's latest block and, on
success, set the `latest_fuel_block` gauge to its height. -/
def fetch_latest_block (env : WatcherEnv) (s : WatcherState) :
    Except Error FuelBlock × WatcherState :=
  match env.latest_block with
  | .error e => (.error e, s)
  | .ok current_block =>
      (.ok current_block,
       { s with latest_fuel_block_gauge := Int.ofNat current_block.height })

/-- Rust `last_submitted_block_height`: the height of the store's latest
submission, if any. -/
def last_submitted_block_height (env : WatcherEnv) :
    Except Error (Option Nat) :=
  match env.latest_submission with
  | .error e => .error e
  | .ok o => .ok (o.map (fun submission => submission.block.height))

/-- Rust `check_if_stale`: stale iff the store has a latest submission whose
height is at least `block_height`. -/
def check_if_stale (env : WatcherEnv) (block_height : Nat) :
    Except Error Bool :=
  match last_submitted_block_height env with
  | .error e => .error e
  | .ok none => .ok false
  | .ok (some submitted_height) => .ok (decide (block_height ≤ submitted_height))

/-- Rust `current_epoch_block_height`: `h - (h % commit_interval)` on `u32`.
Natural subtraction coincides with the exact integer value because
`h % i ≤ h`. -/
def current_epoch_block_height (commit_interval h : Nat) : Nat :=
  h - h % commit_interval

/-- Rust `fetch_block`: ask the adapter for the block at `height`; an absent
block becomes `Error::Other` naming the height. -/
def fetch_block (env : WatcherEnv) (height : Nat) : Except Error FuelBlock :=
  match env.block_at_height height with
  | .error e => .error e
  | .ok none =>
      .error (.Other ("Fuel node could not provide block at height: " ++ toString height))
  | .ok (some b) => .ok b

/-- Rust `BlockWatcher::run`: fetch latest block (updating the gauge), compute
the epoch boundary, return early when stale, otherwise choose the
candidate block (re-using the fetched one when its height is the
boundary) and send it on the handoff channel. -/
def run (env : WatcherEnv) (s : WatcherState) :
    Except Error Unit × WatcherState :=
  match fetch_latest_block env s with
  | (.error e, s1) => (.error e, s1)
  | (.ok current_block, s1) =>
    let epoch_height := current_epoch_block_height env.commit_interval current_block.height
    match check_if_stale env epoch_height with
    | .error e => (.error e, s1)
    | .ok true => (.ok (), s1)
    | .ok false =>
      let chosen : Except Error FuelBlock :=
        if current_block.height == epoch_height then .ok current_block
        else fetch_block env epoch_height
      match chosen with
      | .error e => (.error e, s1)
      | .ok block =>
        match env.send_error with
        | some msg => (.error (.Other msg), s1)
        | none => (.ok (), { s1 with emitted := s1.emitted ++ [block] })

end BlockWatcher

/-- The submission store contents: one record per submitted block
(uniquely keyed by `block.hash`). -/
structure Store where
  submissions : List BlockSubmission
deriving DecidableEq, Repr

/-- Modelled from the spec: the concrete `SubmissionStore` backend is not
among the sources; §4.3 specifies `latest_submission()` as returning the
`Submission` with the greatest `block.height`, or none when the store is
empty. -/
def Store.submission_w_latest_block (st : Store) : Option BlockSubmission :=
  st.submissions.foldl
    (fun acc submission =>
      match acc with
      | none => some submission
      | some best =>
          if best.block.height < submission.block.height then some submission
          else some best)
    none

/-- Modelled from the spec: the concrete `SubmissionStore` backend is not
among the sources; §4.3 specifies `mark_completed(block_hash)` as
transitioning the matching record's `completed` to `true` and returning
the updated record, and failing with a NotFound-style error when no
record with that hash exists.  (§9 leaves the behaviour on an
already-completed record open; these words, taken literally, make it an
idempotent success.) -/
def Store.set_submission_completed (st : Store) (hash : Nat) :
    Except Error (BlockSubmission × Store) :=
  match st.submissions.find? (fun submission => submission.block.hash == hash) with
  | none =>
      .error (.Storage ("Cannot set submission to completed! Submission of block: `"
        ++ toString hash ++ "` not found"))
  | some submission =>
      .ok ({ submission with completed := true },
           ⟨st.submissions.map
             (fun r => if r.block.hash == hash then { r with completed := true } else r)⟩)

/-- Environment of one `CommitListener::run`: whether establishing the
event stream fails, the items the established stream yields (each either
a confirmation event or a stream error), and after how many pulled items
the cancellation token is observed set (`none` = never cancelled). -/
structure ListenerEnv where
  establish_error : Option Error
  events : List (Except Error FuelBlockCommittedOnL1)
  cancel_after : Option Nat

/-- Observable state threaded through `CommitListener::run`: the store,
the `latest_committed_block` gauge, the errors logged by `log_if_error`,
and the height the event stream was opened at (recorded when
`event_streamer(height)` is called). -/
structure ListenerState where
  store : Store
  latest_committed_block_gauge : Int
  logged_errors : List Error
  opened_at : Option Nat
deriving DecidableEq, Repr

namespace CommitListener

/-- Rust `determine_starting_l1_height`: the `submittal_height` of the store's
latest submission, or `0` when the store has none. -/
def determine_starting_l1_height (st : Store) : Nat :=
  match st.submission_w_latest_block with
  | none => 0
  | some submission => submission.submittal_height

/-- Rust `handle_block_committed`: mark the submission with the event's
`fuel_block_hash` completed and set the `latest_committed_block` gauge to
that submission's block height; store lookup failure propagates. -/
def handle_block_committed (s : ListenerState) (committed_on_l1 : FuelBlockCommittedOnL1) :
    Except Error Unit × ListenerState :=
  match s.store.set_submission_completed committed_on_l1.fuel_block_hash with
  | .error e => (.error e, s)
  | .ok (submission, store1) =>
      (.ok (),
       { s with
         store := store1,
         latest_committed_block_gauge := Int.ofNat submission.block.height })

/-- Rust `log_if_error`: record the error of a failed per-event result; a
successful result leaves the state unchanged. -/
def log_if_error (s : ListenerState) (result : Except Error Unit) : ListenerState :=
  match result with
  | .error e => { s with logged_errors := s.logged_errors ++ [e] }
  | .ok _ => s

/-- The stream pipeline
`map_err ∘ and_then handle_block_committed ∘ take_until cancel ∘ for_each log_if_error`:
the cancellation token is checked between pulls; each pulled item is an
event handled to completion (or a stream error passed through), and its
result is logged if an error. -/
def process_events (s : ListenerState) :
    List (Except Error FuelBlockCommittedOnL1) → Option Nat → ListenerState
  | _, some 0 => s
  | [], _ => s
  | item :: rest, fuel =>
      let s1 :=
        match item with
        | .error e => log_if_error s (.error e)
        | .ok event =>
            let (result, s2) := handle_block_committed s event
            log_if_error s2 result
      process_events s1 rest (fuel.map (· - 1))

/-- Rust `CommitListener::run`: determine the starting height, open the event
stream there (recording the height), then drive the pipeline; the loop
itself always ends in `Ok(())`. -/
def run (env : ListenerEnv) (s : ListenerState) :
    Except Error Unit × ListenerState :=
  let height := determine_starting_l1_height s.store
  let s1 := { s with opened_at := some height }
  match env.establish_error with
  | some e => (.error e, s1)
  | none => (.ok (), process_events s1 env.events env.cancel_after)

end CommitListener

section Helpers

/-- Staleness check when the store is empty: never stale. -/
theorem check_if_stale_of_none (env : WatcherEnv)
    (h : env.latest_submission = .ok none) (height : Nat) :
    BlockWatcher.check_if_stale env height = .ok false := by
  simp [BlockWatcher.check_if_stale, BlockWatcher.last_submitted_block_height, h]

/-- Staleness check against a present latest submission. -/
theorem check_if_stale_of_some (env : WatcherEnv) (m : BlockSubmission)
    (h : env.latest_submission = .ok (some m)) (height : Nat) :
    BlockWatcher.check_if_stale env height = .ok (decide (height ≤ m.block.height)) := by
  simp [BlockWatcher.check_if_stale, BlockWatcher.last_submitted_block_height, h]

end Helpers

/-- C2: for every positive 32-bit `commit_interval` `I` and `u32` height
`H`, `current_epoch_block_height` computes exactly `H - (H mod I)` (the
`u32` subtraction neither underflows nor wraps, so the natural-number
value agrees with the integer value), and the result `e` satisfies
`0 ≤ e ≤ H` and `e % I = 0`. -/
theorem current_epoch_block_height_exact (I H : Nat) (hI : 0 < I)
    (hI32 : I < 2 ^ 32) (hH32 : H < 2 ^ 32) :
    ((BlockWatcher.current_epoch_block_height I H : Int) =
        (H : Int) - (H : Int) % (I : Int)) ∧
    BlockWatcher.current_epoch_block_height I H ≤ H ∧
    BlockWatcher.current_epoch_block_height I H % I = 0 := by
  unfold BlockWatcher.current_epoch_block_height
  refine ⟨?_, Nat.sub_le _ _, ?_⟩
  · rw [Nat.cast_sub (Nat.mod_le H I)]
    push_cast
    ring
  · have h2 : H - H % I = I * (H / I) :=
      Nat.sub_eq_of_eq_add (Nat.div_add_mod H I).symm
    rw [h2]
    exact Nat.mul_mod_right I (H / I)

/-- Witness for C2 at `I = 2`, `H = 5`. -/
theorem current_epoch_block_height_exact_witness :
    (0 < 2 ∧ 2 < 2 ^ 32 ∧ 5 < 2 ^ 32) ∧
    (((BlockWatcher.current_epoch_block_height 2 5 : Int) =
        (5 : Int) - (5 : Int) % (2 : Int)) ∧
     BlockWatcher.current_epoch_block_height 2 5 ≤ 5 ∧
     BlockWatcher.current_epoch_block_height 2 5 % 2 = 0) :=
  ⟨⟨by decide, by decide, by decide⟩,
   current_epoch_block_height_exact 2 5 (by decide) (by decide) (by decide)⟩

/-- C9: whenever fetching the latest block succeeds, `run` leaves the
`latest_fuel_block` gauge at that block's height — on every path,
including the stale no-op path and every error path after the fetch. -/
theorem run_sets_latest_fuel_block_gauge (env : WatcherEnv) (s : WatcherState)
    (b : FuelBlock) (hb : env.latest_block = .ok b) :
    ((BlockWatcher.run env s).2).latest_fuel_block_gauge = Int.ofNat b.height := by
  unfold BlockWatcher.run BlockWatcher.fetch_latest_block
  rw [hb]
  dsimp only
  split
  · rfl
  · rfl
  · split
    · rfl
    · split
      · rfl
      · rfl

/-- C1: staleness guarantee.  (1) When the store's latest submission
covers the epoch boundary computed from the fetched latest block, `run`
returns `Ok` and emits nothing on the handoff channel.  (2) When the
store is empty the stale branch is never taken (`check_if_stale` is
`Ok(false)` for every height).  (3) Monotonicity: whenever some
submission height is `>= X` (the store's latest submission then also has
height `>= X`) and the reader honestly answers `block_at_height`, every
block `run` emits has height `> X`. -/
theorem blockWatcher_staleness_guarantee (env : WatcherEnv) (s : WatcherState) :
    (∀ b m, env.latest_block = .ok b →
        env.latest_submission = .ok (some m) →
        BlockWatcher.current_epoch_block_height env.commit_interval b.height ≤
          m.block.height →
        (BlockWatcher.run env s).1 = .ok () ∧
        (BlockWatcher.run env s).2.emitted = s.emitted) ∧
    (env.latest_submission = .ok none →
        ∀ height, BlockWatcher.check_if_stale env height = .ok false) ∧
    (∀ X m, env.latest_submission = .ok (some m) → X ≤ m.block.height →
        (∀ h b, env.block_at_height h = .ok (some b) → b.height = h) →
        ∀ blk ∈ (BlockWatcher.run env s).2.emitted,
          blk ∈ s.emitted ∨ X < blk.height) := by
  refine ⟨?_, ?_, ?_⟩
  · intro b m hb hsub hle
    unfold BlockWatcher.run BlockWatcher.fetch_latest_block
    rw [hb]
    dsimp only
    rw [check_if_stale_of_some env m hsub, decide_eq_true hle]
    exact ⟨rfl, rfl⟩
  · intro hnone height
    exact check_if_stale_of_none env hnone height
  · intro X m hsub hX honest blk hmem
    unfold BlockWatcher.run BlockWatcher.fetch_latest_block at hmem
    cases hlb : env.latest_block with
    | error e =>
        rw [hlb] at hmem
        exact Or.inl hmem
    | ok b =>
        rw [hlb] at hmem
        dsimp only at hmem
        rw [check_if_stale_of_some env m hsub] at hmem
        by_cases hle :
            BlockWatcher.current_epoch_block_height env.commit_interval b.height ≤
              m.block.height
        · rw [decide_eq_true hle] at hmem
          exact Or.inl hmem
        · rw [decide_eq_false hle] at hmem
          dsimp only at hmem
          by_cases hbe :
              b.height =
                BlockWatcher.current_epoch_block_height env.commit_interval b.height
          · rw [if_pos (by simpa using hbe)] at hmem
            cases hse : env.send_error with
            | some msg =>
                rw [hse] at hmem
                exact Or.inl hmem
            | none =>
                rw [hse] at hmem
                dsimp only at hmem
                rcases List.mem_append.mp hmem with h | h
                · exact Or.inl h
                · right
                  rcases List.mem_singleton.mp h with rfl
                  omega
          · rw [if_neg (by simpa using hbe)] at hmem
            unfold BlockWatcher.fetch_block at hmem
            cases hba :
                env.block_at_height
                  (BlockWatcher.current_epoch_block_height env.commit_interval b.height) with
            | error e =>
                rw [hba] at hmem
                exact Or.inl hmem
            | ok o =>
                cases o with
                | none =>
                    rw [hba] at hmem
                    exact Or.inl hmem
                | some blk0 =>
                    rw [hba] at hmem
                    dsimp only at hmem
                    cases hse : env.send_error with
                    | some msg =>
                        rw [hse] at hmem
                        exact Or.inl hmem
                    | none =>
                        rw [hse] at hmem
                        dsimp only at hmem
                        rcases List.mem_append.mp hmem with h | h
                        · exact Or.inl h
                        · right
                          rcases List.mem_singleton.mp h with rfl
                          have := honest _ _ hba
                          omega

/-- Witness for C1: a stale run (interval 2, latest submission at height
6, latest block at height 6) emits nothing; an empty store is never
stale; with a submission at height 2, emitted blocks exceed 2. -/
theorem blockWatcher_staleness_guarantee_witness :
    ((BlockWatcher.run
        ⟨2, .ok ⟨6, 100⟩, fun h => .ok (some ⟨h, h⟩), .ok (some ⟨⟨6, 50⟩, 1, false⟩), none⟩
        ⟨0, []⟩).1 = .ok () ∧
     (BlockWatcher.run
        ⟨2, .ok ⟨6, 100⟩, fun h => .ok (some ⟨h, h⟩), .ok (some ⟨⟨6, 50⟩, 1, false⟩), none⟩
        ⟨0, []⟩).2.emitted = []) ∧
    BlockWatcher.check_if_stale
      ⟨2, .ok ⟨6, 100⟩, fun h => .ok (some ⟨h, h⟩), .ok none, none⟩ 4 = .ok false ∧
    (∀ blk ∈ (BlockWatcher.run
        ⟨2, .ok ⟨5, 100⟩, fun h => .ok (some ⟨h, h⟩), .ok (some ⟨⟨2, 50⟩, 1, false⟩), none⟩
        ⟨0, []⟩).2.emitted, blk ∈ ([] : List FuelBlock) ∨ 2 < blk.height) := by
  refine ⟨(blockWatcher_staleness_guarantee _ ⟨0, []⟩).1 ⟨6, 100⟩ ⟨⟨6, 50⟩, 1, false⟩
      rfl rfl (by decide),
    (blockWatcher_staleness_guarantee
      ⟨2, .ok ⟨6, 100⟩, fun h => .ok (some ⟨h, h⟩), .ok none, none⟩ ⟨0, []⟩).2.1 rfl 4,
    (blockWatcher_staleness_guarantee _ ⟨0, []⟩).2.2 2 ⟨⟨2, 50⟩, 1, false⟩
      rfl (by decide) ?_⟩
  intro h b hb
  simp only [Except.ok.injEq, Option.some.injEq] at hb
  rw [← hb]

/-- Witness for C9 at Example B: interval 2, latest submission height 6,
latest block height 6 — the run is stale, emits nothing, and the gauge
still reads 6. -/
theorem run_sets_latest_fuel_block_gauge_witness :
    (BlockWatcher.run
        ⟨2, .ok ⟨6, 0⟩, fun _ => .ok none, .ok (some ⟨⟨6, 1⟩, 0, false⟩), none⟩
        ⟨0, []⟩).2.latest_fuel_block_gauge = Int.ofNat 6 ∧
    (BlockWatcher.run
        ⟨2, .ok ⟨6, 0⟩, fun _ => .ok none, .ok (some ⟨⟨6, 1⟩, 0, false⟩), none⟩
        ⟨0, []⟩).2.emitted = [] :=
  ⟨run_sets_latest_fuel_block_gauge _ ⟨0, []⟩ ⟨6, 0⟩ rfl, rfl⟩

/-- Shape of a non-stale `run` after a successful latest-block fetch:
the candidate is the fetched block when its height is the boundary, and
otherwise `fetch_block` at the boundary; then the send is attempted. -/
theorem run_eq_not_stale (env : WatcherEnv) (s : WatcherState) (b : FuelBlock)
    (hb : env.latest_block = .ok b)
    (hstale : BlockWatcher.check_if_stale env
      (BlockWatcher.current_epoch_block_height env.commit_interval b.height) = .ok false) :
    BlockWatcher.run env s =
      (match (if b.height ==
                BlockWatcher.current_epoch_block_height env.commit_interval b.height
              then Except.ok b
              else BlockWatcher.fetch_block env
                (BlockWatcher.current_epoch_block_height env.commit_interval b.height)) with
       | .error e => (.error e, { s with latest_fuel_block_gauge := Int.ofNat b.height })
       | .ok block =>
         match env.send_error with
         | some msg =>
             (.error (.Other msg), { s with latest_fuel_block_gauge := Int.ofNat b.height })
         | none =>
             (.ok (), { s with
                 latest_fuel_block_gauge := Int.ofNat b.height
                 emitted := s.emitted ++ [block] })) := by
  unfold BlockWatcher.run BlockWatcher.fetch_latest_block
  rw [hb]
  dsimp only
  rw [hstale]

/-- C4: candidate block choice.  Part 1: when the latest block's height
equals the epoch boundary, `run` emits that already-fetched block and its
result does not depend on `block_at_height` at all (no second reader
call).  Part 2: otherwise the block returned by the reader at exactly the
boundary height is the one emitted. -/
theorem run_candidate_choice (env : WatcherEnv) (s : WatcherState) :
    (∀ b f, env.latest_block = .ok b →
        b.height = BlockWatcher.current_epoch_block_height env.commit_interval b.height →
        (env.latest_submission = .ok none ∨
          ∃ m, env.latest_submission = .ok (some m) ∧
            m.block.height <
              BlockWatcher.current_epoch_block_height env.commit_interval b.height) →
        env.send_error = none →
        BlockWatcher.run { env with block_at_height := f } s =
          (.ok (), { s with
              latest_fuel_block_gauge := Int.ofNat b.height
              emitted := s.emitted ++ [b] })) ∧
    (∀ b blk, env.latest_block = .ok b →
        b.height ≠ BlockWatcher.current_epoch_block_height env.commit_interval b.height →
        (env.latest_submission = .ok none ∨
          ∃ m, env.latest_submission = .ok (some m) ∧
            m.block.height <
              BlockWatcher.current_epoch_block_height env.commit_interval b.height) →
        env.block_at_height
          (BlockWatcher.current_epoch_block_height env.commit_interval b.height) =
          .ok (some blk) →
        env.send_error = none →
        BlockWatcher.run env s =
          (.ok (), { s with
              latest_fuel_block_gauge := Int.ofNat b.height
              emitted := s.emitted ++ [blk] })) := by
  constructor
  · intro b f hb hbe hns hse
    have hstale : BlockWatcher.check_if_stale { env with block_at_height := f }
        (BlockWatcher.current_epoch_block_height env.commit_interval b.height) =
          .ok false := by
      rcases hns with hnone | ⟨m, hm, hlt⟩
      · exact check_if_stale_of_none _ hnone _
      · rw [check_if_stale_of_some { env with block_at_height := f } m hm,
          decide_eq_false (by omega)]
    rw [run_eq_not_stale { env with block_at_height := f } s b hb hstale]
    dsimp only
    rw [if_pos (beq_iff_eq.mpr hbe)]
    dsimp only
    rw [hse]
  · intro b blk hb hne hns hfetch hse
    have hstale : BlockWatcher.check_if_stale env
        (BlockWatcher.current_epoch_block_height env.commit_interval b.height) =
          .ok false := by
      rcases hns with hnone | ⟨m, hm, hlt⟩
      · exact check_if_stale_of_none _ hnone _
      · rw [check_if_stale_of_some _ m hm, decide_eq_false (by omega)]
    rw [run_eq_not_stale env s b hb hstale]
    rw [if_neg (by simpa using hne)]
    unfold BlockWatcher.fetch_block
    rw [hfetch]
    dsimp only
    rw [hse]

/-- C8: when the run is not stale, the latest height differs from the
boundary, and the reader reports no block at the boundary (an absent,
not erroneous, result), `run` fails with `Error::Other` naming the
missing height and emits nothing on the handoff channel. -/
theorem run_missing_boundary_block (env : WatcherEnv) (s : WatcherState) (b : FuelBlock)
    (hb : env.latest_block = .ok b)
    (hne : b.height ≠ BlockWatcher.current_epoch_block_height env.commit_interval b.height)
    (hns : env.latest_submission = .ok none ∨
      ∃ m, env.latest_submission = .ok (some m) ∧
        m.block.height <
          BlockWatcher.current_epoch_block_height env.commit_interval b.height)
    (hmiss : env.block_at_height
      (BlockWatcher.current_epoch_block_height env.commit_interval b.height) = .ok none) :
    BlockWatcher.run env s =
      (.error (.Other ("Fuel node could not provide block at height: " ++
        toString (BlockWatcher.current_epoch_block_height env.commit_interval b.height))),
       { s with latest_fuel_block_gauge := Int.ofNat b.height }) ∧
    (BlockWatcher.run env s).2.emitted = s.emitted := by
  have hstale : BlockWatcher.check_if_stale env
      (BlockWatcher.current_epoch_block_height env.commit_interval b.height) =
        .ok false := by
    rcases hns with hnone | ⟨m, hm, hlt⟩
    · exact check_if_stale_of_none _ hnone _
    · rw [check_if_stale_of_some _ m hm, decide_eq_false (by omega)]
  have hrun : BlockWatcher.run env s =
      (.error (.Other ("Fuel node could not provide block at height: " ++
        toString (BlockWatcher.current_epoch_block_height env.commit_interval b.height))),
       { s with latest_fuel_block_gauge := Int.ofNat b.height }) := by
    rw [run_eq_not_stale env s b hb hstale]
    rw [if_neg (by simpa using hne)]
    unfold BlockWatcher.fetch_block
    rw [hmiss]
  exact ⟨hrun, by rw [hrun]⟩

/-- Witness for C4: with interval 2 and latest submission at height 2, a
latest block at height 4 (the boundary) is emitted even when every
`block_at_height` call would fail — no second read happens; with a
latest block at height 5, the block the reader returns at height 4 is
emitted, not the height-5 block. -/
theorem run_candidate_choice_witness :
    BlockWatcher.run
      ⟨2, .ok ⟨4, 9⟩, fun _ => .error (.Network "reader down"),
       .ok (some ⟨⟨2, 50⟩, 1, false⟩), none⟩ ⟨0, []⟩ =
      (.ok (), ⟨Int.ofNat 4, [⟨4, 9⟩]⟩) ∧
    BlockWatcher.run
      ⟨2, .ok ⟨5, 9⟩, fun h => .ok (some ⟨h, 77⟩),
       .ok (some ⟨⟨2, 50⟩, 1, false⟩), none⟩ ⟨0, []⟩ =
      (.ok (), ⟨Int.ofNat 5, [⟨4, 77⟩]⟩) :=
  ⟨(run_candidate_choice
      ⟨2, .ok ⟨4, 9⟩, fun _ => .ok none, .ok (some ⟨⟨2, 50⟩, 1, false⟩), none⟩ ⟨0, []⟩).1
      ⟨4, 9⟩ (fun _ => .error (.Network "reader down")) rfl rfl
      (Or.inr ⟨⟨⟨2, 50⟩, 1, false⟩, rfl, by decide⟩) rfl,
   (run_candidate_choice
      ⟨2, .ok ⟨5, 9⟩, fun h => .ok (some ⟨h, 77⟩), .ok (some ⟨⟨2, 50⟩, 1, false⟩), none⟩
      ⟨0, []⟩).2 ⟨5, 9⟩ ⟨4, 77⟩ rfl (by decide)
      (Or.inr ⟨⟨⟨2, 50⟩, 1, false⟩, rfl, by decide⟩) rfl rfl⟩

/-- Witness for C8: interval 2, latest submission at height 2, latest
block at height 5, and no block available at the boundary height 4 — the
run errors with `Other` naming height 4 and emits nothing. -/
theorem run_missing_boundary_block_witness :
    BlockWatcher.run
      ⟨2, .ok ⟨5, 9⟩, fun _ => .ok none, .ok (some ⟨⟨2, 50⟩, 1, false⟩), none⟩ ⟨0, []⟩ =
      (.error (.Other ("Fuel node could not provide block at height: " ++ toString 4)),
       ⟨Int.ofNat 5, []⟩) ∧
    (BlockWatcher.run
      ⟨2, .ok ⟨5, 9⟩, fun _ => .ok none, .ok (some ⟨⟨2, 50⟩, 1, false⟩), none⟩
      ⟨0, []⟩).2.emitted = [] :=
  run_missing_boundary_block
    ⟨2, .ok ⟨5, 9⟩, fun _ => .ok none, .ok (some ⟨⟨2, 50⟩, 1, false⟩), none⟩ ⟨0, []⟩
    ⟨5, 9⟩ rfl (by decide) (Or.inr ⟨⟨⟨2, 50⟩, 1, false⟩, rfl, by decide⟩) rfl

/-- Per-event handling and logging never change `opened_at`. -/
theorem process_events_opened_at (items : List (Except Error FuelBlockCommittedOnL1)) :
    ∀ (s : ListenerState) (fuel : Option Nat),
      (CommitListener.process_events s items fuel).opened_at = s.opened_at := by
  induction items with
  | nil =>
      intro s fuel
      match fuel with
      | none => rfl
      | some 0 => rfl
      | some (_ + 1) => rfl
  | cons item rest ih =>
      intro s fuel
      match fuel with
      | some 0 => rfl
      | none =>
          show (CommitListener.process_events _ rest _).opened_at = _
          rw [ih]
          cases item with
          | error e => rfl
          | ok event =>
              show (CommitListener.log_if_error
                (CommitListener.handle_block_committed s event).2
                (CommitListener.handle_block_committed s event).1).opened_at = _
              unfold CommitListener.handle_block_committed CommitListener.log_if_error
              cases s.store.set_submission_completed event.fuel_block_hash with
              | error e => rfl
              | ok p => rfl
      | some (n + 1) =>
          show (CommitListener.process_events _ rest _).opened_at = _
          rw [ih]
          cases item with
          | error e => rfl
          | ok event =>
              show (CommitListener.log_if_error
                (CommitListener.handle_block_committed s event).2
                (CommitListener.handle_block_committed s event).1).opened_at = _
              unfold CommitListener.handle_block_committed CommitListener.log_if_error
              cases s.store.set_submission_completed event.fuel_block_hash with
              | error e => rfl
              | ok p => rfl

/-- Cancellation after `k` pulls is the same as fully processing exactly
the first `k` stream items and never cancelling: the check sits between
pulls, and each pulled item is handled to completion. -/
theorem process_events_cancel_take (items : List (Except Error FuelBlockCommittedOnL1)) :
    ∀ (s : ListenerState) (k : Nat),
      CommitListener.process_events s items (some k) =
        CommitListener.process_events s (items.take k) none := by
  induction items with
  | nil =>
      intro s k
      match k with
      | 0 => rfl
      | _ + 1 => rfl
  | cons item rest ih =>
      intro s k
      match k with
      | 0 => rfl
      | n + 1 =>
          show CommitListener.process_events _ rest (some (n + 1 - 1)) =
            CommitListener.process_events _ (rest.take n) none
          rw [Nat.add_sub_cancel, ih]

/-- C6: every `CommitListener::run` opens the destination event stream at
exactly the `submittal_height` of the store's latest submission, or at
height 0 when the store has no submissions. -/
theorem run_opens_stream_at_starting_height (env : ListenerEnv) (s : ListenerState) :
    (∀ sub, s.store.submission_w_latest_block = some sub →
        (CommitListener.run env s).2.opened_at = some sub.submittal_height) ∧
    (s.store.submission_w_latest_block = none →
        (CommitListener.run env s).2.opened_at = some 0) := by
  have hgen : (CommitListener.run env s).2.opened_at =
      some (CommitListener.determine_starting_l1_height s.store) := by
    unfold CommitListener.run
    cases env.establish_error with
    | some e => rfl
    | none =>
        dsimp only
        rw [process_events_opened_at]
  constructor
  · intro sub hsub
    rw [hgen]
    unfold CommitListener.determine_starting_l1_height
    rw [hsub]
  · intro hnone
    rw [hgen]
    unfold CommitListener.determine_starting_l1_height
    rw [hnone]

/-- Witness for C6: with one stored submission whose `submittal_height`
is 42 the stream opens at 42; with an empty store it opens at 0. -/
theorem run_opens_stream_at_starting_height_witness :
    (CommitListener.run ⟨none, [], none⟩
      ⟨⟨[⟨⟨1, 2⟩, 42, false⟩]⟩, 0, [], none⟩).2.opened_at = some 42 ∧
    (CommitListener.run ⟨none, [], none⟩
      ⟨⟨[]⟩, 0, [], none⟩).2.opened_at = some 0 :=
  ⟨(run_opens_stream_at_starting_height ⟨none, [], none⟩
      ⟨⟨[⟨⟨1, 2⟩, 42, false⟩]⟩, 0, [], none⟩).1 ⟨⟨1, 2⟩, 42, false⟩ rfl,
   (run_opens_stream_at_starting_height ⟨none, [], none⟩
      ⟨⟨[]⟩, 0, [], none⟩).2 rfl⟩

/-- A failed handling of one pulled event only appends the error to the
log; the store, the gauge and the rest of the processing are untouched. -/
theorem process_events_step_error (t : ListenerState) (ev : FuelBlockCommittedOnL1)
    (e : Error) (rest : List (Except Error FuelBlockCommittedOnL1))
    (hset : t.store.set_submission_completed ev.fuel_block_hash = .error e) :
    CommitListener.process_events t (.ok ev :: rest) none =
      CommitListener.process_events
        { t with logged_errors := t.logged_errors ++ [e] } rest none := by
  show CommitListener.process_events
      (CommitListener.log_if_error (CommitListener.handle_block_committed t ev).2
        (CommitListener.handle_block_committed t ev).1) rest none = _
  have hh : CommitListener.handle_block_committed t ev = (.error e, t) := by
    unfold CommitListener.handle_block_committed
    rw [hset]
  rw [hh]
  rfl

/-- A successful handling of one pulled event updates the store and sets
the gauge to the completed submission's height, then processing goes on. -/
theorem process_events_step_ok (t : ListenerState) (ev : FuelBlockCommittedOnL1)
    (r0 : BlockSubmission) (store1 : Store)
    (rest : List (Except Error FuelBlockCommittedOnL1))
    (hset : t.store.set_submission_completed ev.fuel_block_hash = .ok (r0, store1)) :
    CommitListener.process_events t (.ok ev :: rest) none =
      CommitListener.process_events
        { t with
          store := store1
          latest_committed_block_gauge := Int.ofNat r0.block.height } rest none := by
  show CommitListener.process_events
      (CommitListener.log_if_error (CommitListener.handle_block_committed t ev).2
        (CommitListener.handle_block_committed t ev).1) rest none = _
  have hh : CommitListener.handle_block_committed t ev =
      (.ok (), { t with
        store := store1
        latest_committed_block_gauge := Int.ofNat r0.block.height }) := by
    unfold CommitListener.handle_block_committed
    rw [hset]
  rw [hh]
  rfl

/-- C3: per-event isolation.  (1) Whenever the stream is established,
`run` returns `Ok` — no per-event error ever propagates out.  (2) An
event whose handling fails is only logged; processing continues on the
remaining events with store and gauge untouched.  (3) In particular, for
a stream of a non-matching event followed by an event matching a stored
submission, `run` returns `Ok` and that submission ends marked
completed. -/
theorem commitListener_per_event_isolation (env : ListenerEnv) (s : ListenerState) :
    (env.establish_error = none → (CommitListener.run env s).1 = .ok ()) ∧
    (∀ (t : ListenerState) ev e rest,
        t.store.set_submission_completed ev.fuel_block_hash = .error e →
        CommitListener.process_events t (.ok ev :: rest) none =
          CommitListener.process_events
            { t with logged_errors := t.logged_errors ++ [e] } rest none) ∧
    (∀ ev1 ev2 sub,
        env.establish_error = none →
        env.events = [.ok ev1, .ok ev2] →
        env.cancel_after = none →
        (∀ r ∈ s.store.submissions, r.block.hash ≠ ev1.fuel_block_hash) →
        sub ∈ s.store.submissions →
        sub.block.hash = ev2.fuel_block_hash →
        (CommitListener.run env s).1 = .ok () ∧
        { sub with completed := true } ∈
          (CommitListener.run env s).2.store.submissions) := by
  refine ⟨?_, process_events_step_error, ?_⟩
  · intro hest
    unfold CommitListener.run
    rw [hest]
  · intro ev1 ev2 sub hest hevents hcancel hmiss hsub hhash
    have hrun1 : (CommitListener.run env s).1 = .ok () := by
      unfold CommitListener.run
      rw [hest]
    have hrun2 : (CommitListener.run env s).2 =
        CommitListener.process_events
          { s with opened_at := some (CommitListener.determine_starting_l1_height s.store) }
          [.ok ev1, .ok ev2] none := by
      unfold CommitListener.run
      rw [hest]
      dsimp only
      rw [hevents, hcancel]
    set t : ListenerState :=
      { s with opened_at := some (CommitListener.determine_starting_l1_height s.store) }
      with ht
    have hset1 : t.store.set_submission_completed ev1.fuel_block_hash =
        .error (.Storage ("Cannot set submission to completed! Submission of block: `"
          ++ toString ev1.fuel_block_hash ++ "` not found")) := by
      unfold Store.set_submission_completed
      have hfind : t.store.submissions.find?
          (fun r => r.block.hash == ev1.fuel_block_hash) = none := by
        rw [List.find?_eq_none]
        intro r hr
        simpa using hmiss r hr
      rw [hfind]
    cases hf : t.store.submissions.find?
        (fun r => r.block.hash == ev2.fuel_block_hash) with
    | none =>
        exfalso
        have hcontra := List.find?_eq_none.mp hf sub hsub
        simp [hhash] at hcontra
    | some r0 =>
        have hset2 : t.store.set_submission_completed ev2.fuel_block_hash =
            .ok ({ r0 with completed := true },
              ⟨t.store.submissions.map (fun r =>
                if r.block.hash == ev2.fuel_block_hash then { r with completed := true }
                else r)⟩) := by
          unfold Store.set_submission_completed
          rw [hf]
        refine ⟨hrun1, ?_⟩
        rw [hrun2, process_events_step_error t ev1 _ [.ok ev2] hset1]
        rw [process_events_step_ok
          { t with logged_errors := t.logged_errors ++
            [Error.Storage ("Cannot set submission to completed! Submission of block: `"
              ++ toString ev1.fuel_block_hash ++ "` not found")] }
          ev2 _ _ [] hset2]
        exact List.mem_map.mpr ⟨sub, hsub, by simp [hhash]⟩

/-- Witness for C3: store holds a pending submission with hash 2; the
stream yields a non-matching event (hash 9) then the matching one; `run`
returns `Ok` and the submission ends completed. -/
theorem commitListener_per_event_isolation_witness :
    (CommitListener.run ⟨none, [.ok ⟨9, 0⟩, .ok ⟨2, 0⟩], none⟩
        ⟨⟨[⟨⟨5, 2⟩, 4, false⟩]⟩, 0, [], none⟩).1 = .ok () ∧
    (⟨⟨5, 2⟩, 4, true⟩ : BlockSubmission) ∈
      (CommitListener.run ⟨none, [.ok ⟨9, 0⟩, .ok ⟨2, 0⟩], none⟩
        ⟨⟨[⟨⟨5, 2⟩, 4, false⟩]⟩, 0, [], none⟩).2.store.submissions :=
  (commitListener_per_event_isolation ⟨none, [.ok ⟨9, 0⟩, .ok ⟨2, 0⟩], none⟩
    ⟨⟨[⟨⟨5, 2⟩, 4, false⟩]⟩, 0, [], none⟩).2.2 ⟨9, 0⟩ ⟨2, 0⟩ ⟨⟨5, 2⟩, 4, false⟩
    rfl rfl rfl (by decide) (by decide) rfl

/-- C7: with the stream established and the cancellation token observed
set after `k` pulls, `run` returns `Ok`, and the final state is exactly
that of fully processing the first `k` stream items with no cancellation:
the check sits between pulls, and the in-flight event is always handled
to completion. -/
theorem commitListener_cancellation (env : ListenerEnv) (s : ListenerState) (k : Nat)
    (hest : env.establish_error = none) (hcancel : env.cancel_after = some k) :
    (CommitListener.run env s).1 = .ok () ∧
    (CommitListener.run env s).2 =
      CommitListener.process_events
        { s with opened_at := some (CommitListener.determine_starting_l1_height s.store) }
        (env.events.take k) none := by
  unfold CommitListener.run
  rw [hest]
  dsimp only
  rw [hcancel, process_events_cancel_take]
  exact ⟨rfl, rfl⟩

/-- Witness for C7: two pending submissions, a two-event stream, token
firing after one pull — `run` is `Ok`, the first submission is completed
(gauge 10), the second event is never consumed. -/
theorem commitListener_cancellation_witness :
    (CommitListener.run ⟨none, [.ok ⟨1, 0⟩, .ok ⟨2, 0⟩], some 1⟩
        ⟨⟨[⟨⟨10, 1⟩, 3, false⟩, ⟨⟨5, 2⟩, 4, false⟩]⟩, 0, [], none⟩).1 = .ok () ∧
    (CommitListener.run ⟨none, [.ok ⟨1, 0⟩, .ok ⟨2, 0⟩], some 1⟩
        ⟨⟨[⟨⟨10, 1⟩, 3, false⟩, ⟨⟨5, 2⟩, 4, false⟩]⟩, 0, [], none⟩).2 =
      ⟨⟨[⟨⟨10, 1⟩, 3, true⟩, ⟨⟨5, 2⟩, 4, false⟩]⟩, 10, [], some 3⟩ :=
  ⟨(commitListener_cancellation ⟨none, [.ok ⟨1, 0⟩, .ok ⟨2, 0⟩], some 1⟩
      ⟨⟨[⟨⟨10, 1⟩, 3, false⟩, ⟨⟨5, 2⟩, 4, false⟩]⟩, 0, [], none⟩ 1 rfl rfl).1,
   ((commitListener_cancellation ⟨none, [.ok ⟨1, 0⟩, .ok ⟨2, 0⟩], some 1⟩
      ⟨⟨[⟨⟨10, 1⟩, 3, false⟩, ⟨⟨5, 2⟩, 4, false⟩]⟩, 0, [], none⟩ 1 rfl rfl).2).trans rfl⟩

/-- C5 (amended): for each event processed in stream order, if a
Submission whose `block.hash` equals the event's `fuel_block_hash`
exists in the store, it is marked completed (idempotently when it
already was, per the literal §4.3 store model) and the
`latest_committed_block` gauge is set to the found submission's height;
if no matching Submission exists, the NotFound anomaly is only logged
and processing continues unchanged. -/
theorem commitListener_completion_marking (t : ListenerState)
    (ev : FuelBlockCommittedOnL1) (rest : List (Except Error FuelBlockCommittedOnL1)) :
    (∀ r0, t.store.submissions.find?
        (fun r => r.block.hash == ev.fuel_block_hash) = some r0 →
        CommitListener.process_events t (.ok ev :: rest) none =
          CommitListener.process_events
            { t with
              store := ⟨t.store.submissions.map (fun r =>
                if r.block.hash == ev.fuel_block_hash then { r with completed := true }
                else r)⟩
              latest_committed_block_gauge := Int.ofNat r0.block.height } rest none) ∧
    (t.store.submissions.find?
        (fun r => r.block.hash == ev.fuel_block_hash) = none →
        CommitListener.process_events t (.ok ev :: rest) none =
          CommitListener.process_events
            { t with logged_errors := t.logged_errors ++
               [.Storage ("Cannot set submission to completed! Submission of block: `"
                 ++ toString ev.fuel_block_hash ++ "` not found")] } rest none) := by
  constructor
  · intro r0 hf
    refine process_events_step_ok t ev { r0 with completed := true } _ rest ?_
    unfold Store.set_submission_completed
    rw [hf]
  · intro hf
    refine process_events_step_error t ev _ rest ?_
    unfold Store.set_submission_completed
    rw [hf]

/-- Witness for C5 (amended): a matching pending submission gets
completed with the gauge set to its height 5; a non-matching event only
appends the NotFound error to the log. -/
theorem commitListener_completion_marking_witness :
    CommitListener.process_events ⟨⟨[⟨⟨5, 2⟩, 4, false⟩]⟩, 0, [], none⟩
        [.ok ⟨2, 0⟩] none = ⟨⟨[⟨⟨5, 2⟩, 4, true⟩]⟩, 5, [], none⟩ ∧
    CommitListener.process_events ⟨⟨[⟨⟨5, 2⟩, 4, false⟩]⟩, 0, [], none⟩
        [.ok ⟨9, 0⟩] none =
      ⟨⟨[⟨⟨5, 2⟩, 4, false⟩]⟩, 0,
       [.Storage ("Cannot set submission to completed! Submission of block: `"
         ++ toString 9 ++ "` not found")], none⟩ :=
  ⟨((commitListener_completion_marking ⟨⟨[⟨⟨5, 2⟩, 4, false⟩]⟩, 0, [], none⟩
      ⟨2, 0⟩ []).1 ⟨⟨5, 2⟩, 4, false⟩ rfl).trans rfl,
   ((commitListener_completion_marking ⟨⟨[⟨⟨5, 2⟩, 4, false⟩]⟩, 0, [], none⟩
      ⟨9, 0⟩ []).2 rfl).trans rfl⟩

/-- Refutation of C5 as stated: under the literal §4.3 store model, an
event matching an already-completed submission is not merely logged —
`mark_completed` reports success, so the gauge moves to that
submission's height (dropping from 10 to 5 here) and nothing is
logged. -/
theorem commitListener_already_completed_not_only_logged :
    (CommitListener.run ⟨none, [.ok ⟨7, 0⟩], none⟩
        ⟨⟨[⟨⟨5, 7⟩, 0, true⟩]⟩, 10, [], none⟩).2.latest_committed_block_gauge = 5 ∧
    (CommitListener.run ⟨none, [.ok ⟨7, 0⟩], none⟩
        ⟨⟨[⟨⟨5, 7⟩, 0, true⟩]⟩, 10, [], none⟩).2.logged_errors = [] ∧
    (CommitListener.run ⟨none, [.ok ⟨7, 0⟩], none⟩
        ⟨⟨[⟨⟨5, 7⟩, 0, true⟩]⟩, 10, [], none⟩).1 = .ok () :=
  ⟨rfl, rfl, rfl⟩

/-- C10: the `latest_committed_block` gauge is last-write-wins, not
monotonic: each successful completion sets it to exactly that
submission's height, with no maximum taken against the previous value;
completing a height-10 submission and then a height-5 one leaves the
gauge at 5. -/
theorem latest_committed_block_gauge_not_monotonic :
    (∀ (t : ListenerState) (ev : FuelBlockCommittedOnL1) r0 store1,
        t.store.set_submission_completed ev.fuel_block_hash = .ok (r0, store1) →
        (CommitListener.handle_block_committed t ev).2.latest_committed_block_gauge =
          Int.ofNat r0.block.height) ∧
    (CommitListener.run ⟨none, [.ok ⟨1, 0⟩], none⟩
        ⟨⟨[⟨⟨10, 1⟩, 0, false⟩, ⟨⟨5, 2⟩, 0, false⟩]⟩, 0, [],
          none⟩).2.latest_committed_block_gauge = 10 ∧
    (CommitListener.run ⟨none, [.ok ⟨1, 0⟩, .ok ⟨2, 0⟩], none⟩
        ⟨⟨[⟨⟨10, 1⟩, 0, false⟩, ⟨⟨5, 2⟩, 0, false⟩]⟩, 0, [],
          none⟩).2.latest_committed_block_gauge = 5 := by
  refine ⟨?_, rfl, rfl⟩
  intro t ev r0 store1 hset
  unfold CommitListener.handle_block_committed
  rw [hset]

/-- Witness for C10: completing the hash-2 submission of height 5 while
the gauge reads 10 sets the gauge to 5. -/
theorem latest_committed_block_gauge_not_monotonic_witness :
    (CommitListener.handle_block_committed ⟨⟨[⟨⟨5, 2⟩, 4, false⟩]⟩, 10, [], none⟩
       ⟨2, 0⟩).2.latest_committed_block_gauge = Int.ofNat 5 :=
  latest_committed_block_gauge_not_monotonic.1 ⟨⟨[⟨⟨5, 2⟩, 4, false⟩]⟩, 10, [], none⟩
    ⟨2, 0⟩ ⟨⟨5, 2⟩, 4, true⟩ ⟨[⟨⟨5, 2⟩, 4, true⟩]⟩ rfl
